import Mathlib

/-!
Verification of the Local_Map_View tile-addressing and batch-retrieval engine.

The definitions below are shallow embeddings of the JavaScript sources:
  * the batch downloader (`scripts/download-tiles.js` part of `src/renderer.js`):
    `parseZooms`, `clampLat`, `latLonToTile`, `computeBoundingBox`,
    `downloadTile`, and the tile-enumeration loop of `main`;
  * the tile server (`src/unnamed/part_002`): `isValidCoordinate`,
    `ALLOWED_EXTENSIONS` and the `/tiles/:z/:x/:y.:ext` request handler.

JavaScript strings are modelled by Lean `String`; the JS helpers used by the
sources (`String.prototype.trim`, `String.prototype.split`, `parseInt`,
`String.prototype.toLowerCase`, `String.prototype.startsWith`) are embedded
character-by-character as `jsTrim`, `jsSplit`, `jsParseInt`, `jsToLower`,
`strStartsWith`. Machine floating point in the projection formulas is
idealised as real arithmetic; file paths are modelled as segment lists.
-/

/-! ### Character-level embeddings of the JavaScript string primitives -/

/-- JS `String.prototype.trim`: drop leading and trailing whitespace. -/
def trimChars (l : List Char) : List Char :=
  ((l.dropWhile Char.isWhitespace).reverse.dropWhile Char.isWhitespace).reverse

/-- JS `s.trim()`. -/
def jsTrim (s : String) : String :=
  String.mk (trimChars s.data)

/-- Split a character list on a separator character; like JS
`String.prototype.split` with a single-character separator, this always
returns at least one (possibly empty) group. -/
def splitChars (c : Char) : List Char → List (List Char)
  | [] => [[]]
  | a :: rest =>
    match splitChars c rest with
    | [] => [[]]
    | g :: gs => if a = c then [] :: g :: gs else (a :: g) :: gs

/-- JS `s.split(c)` for a one-character separator `c`. -/
def jsSplit (c : Char) (s : String) : List String :=
  (splitChars c s.data).map String.mk

/-- Numeric value of a decimal digit character. -/
def digitVal (c : Char) : ℕ := c.toNat - 48

/-- Value of a list of decimal digit characters read left to right. -/
def digitsVal (l : List Char) : ℕ :=
  l.foldl (fun acc c => acc * 10 + digitVal c) 0

/-- JS `parseInt(s, 10)`: skip leading whitespace, accept an optional sign,
then read the longest prefix of decimal digits; `none` models `NaN` (no
digits found). Trailing junk after the digits is ignored, exactly as in JS. -/
def jsParseInt (s : String) : Option ℤ :=
  match s.data.dropWhile Char.isWhitespace with
  | '-' :: rest =>
    let ds := rest.takeWhile Char.isDigit
    if ds.isEmpty then none else some (-(digitsVal ds : ℤ))
  | '+' :: rest =>
    let ds := rest.takeWhile Char.isDigit
    if ds.isEmpty then none else some ((digitsVal ds : ℤ))
  | cs =>
    let ds := cs.takeWhile Char.isDigit
    if ds.isEmpty then none else some ((digitsVal ds : ℤ))

/-- JS `s.toLowerCase()` (ASCII case folding, as used for extensions). -/
def jsToLower (s : String) : String :=
  String.mk (s.data.map Char.toLower)

/-- JS `s.startsWith(p)`: `p` is a prefix of the character sequence of `s`. -/
def strStartsWith (s p : String) : Bool :=
  p.data.isPrefixOf s.data

/-! ### Zoom-level parsing (`parseZooms` in the downloader) -/

/-- Constant `DEFAULT_ZOOMS` from the downloader source. -/
def DEFAULT_ZOOMS : List ℤ := [12]

/-- The ascending integer range `[a, a+1, ..., b]` built by the `for` loop of
the dash branch of `parseZooms` (empty when `b < a`). -/
def intRange (a b : ℤ) : List ℤ :=
  (List.range (b + 1 - a).toNat).map (fun (i : ℕ) => a + (i : ℤ))

/-- The dash branch of `parseZooms` on the trimmed string `t`: if `t`
contains a dash, split on dashes, `parseInt` the first two parts, and when
both parse and `start <= end` report the pair; otherwise report `none` (the
code then falls through to the comma branch). -/
def dashParse (t : String) : Option (ℤ × ℤ) :=
  if t.data.contains '-' then
    let ps := (jsSplit '-' t).map jsParseInt
    match ps[0]?, ps[1]? with
    | some (some a), some (some b) => if a ≤ b then some (a, b) else none
    | _, _ => none
  else none

/-- The comma branch of `parseZooms`: split on commas, `parseInt` each
trimmed part, keep the finite results. -/
def commaParse (t : String) : List ℤ :=
  (jsSplit ',' t).filterMap (fun p => jsParseInt (jsTrim p))

/-- Body of `parseZooms` on a non-empty string: trim, try the dash-range branch,
else the comma branch. -/
def parseZoomString (s : String) : List ℤ :=
  let t := jsTrim s
  match dashParse t with
  | some (a, b) => intRange a b
  | none => commaParse t

/-- Behaviour of `parseZooms` on a string value, including the leading falsy/empty check
(`!value || value.length === 0`). -/
def parseZoomValueString (s : String) : List ℤ :=
  if s = "" then DEFAULT_ZOOMS else parseZoomString s

/-- The JS values `parseZooms` receives in this program: `undefined`, a
boolean (a bare `--zoom` flag), a string, or an array of strings (the
program's CLI/env plumbing only ever puts strings inside arrays). -/
inductive ZoomValue where
  | undef : ZoomValue
  | bool (b : Bool) : ZoomValue
  | str (s : String) : ZoomValue
  | arr (items : List String) : ZoomValue

/-- The JS dedup idiom `arr.filter((z, i) => arr.indexOf(z) === i)`: keep
each element at its first occurrence. -/
def jsUniqueFirst (l : List ℤ) : List ℤ :=
  (l.enum.filter (fun p => l.indexOf p.2 == p.1)).map (fun p => p.2)

/-- JS `arr.sort((a, b) => a - b)`: sort ascending. -/
def jsSortAsc (l : List ℤ) : List ℤ :=
  List.insertionSort (fun a b => a ≤ b) l

/-- Function `parseZooms` from the downloader: falsy/empty values yield the default
zoom list; arrays flat-map the parser over their elements then deduplicate
(first occurrence) and sort ascending; strings go through the dash-range /
comma parsing (`String(true)` is the string `"true"` for a bare flag). -/
def parseZooms : ZoomValue → List ℤ
  | .undef => DEFAULT_ZOOMS
  | .bool b => if b then parseZoomString "true" else DEFAULT_ZOOMS
  | .str s => parseZoomValueString s
  | .arr items =>
    if items.isEmpty then DEFAULT_ZOOMS
    else jsSortAsc (jsUniqueFirst (items.flatMap parseZoomValueString))

/-! ### Geodesy module (`clampLat`, `latLonToTile`, `computeBoundingBox`) -/

/-- Constant `EARTH_RADIUS_METERS` from the downloader source. -/
noncomputable def EARTH_RADIUS_METERS : ℝ := 6371008.8

/-- Function `clampLat`: clamp latitude to the Web Mercator validity range,
`Math.max(Math.min(lat, 85.05112878), -85.05112878)`. -/
noncomputable def clampLat (lat : ℝ) : ℝ :=
  max (min lat 85.05112878) (-85.05112878)

/-- A slippy-map tile index pair, as returned by `latLonToTile`. -/
structure TileCoord where
  x : ℤ
  y : ℤ
deriving Repr, DecidableEq

/-- Function `latLonToTile` from the downloader: clamp the latitude, project to the
`2^zoom × 2^zoom` grid with the Web Mercator formulas, floor, and clamp both
indices into `[0, 2^zoom - 1]`. Floating point is idealised as real
arithmetic; `Math.floor` is `Int.floor`. -/
noncomputable def latLonToTile (lat lon : ℝ) (zoom : ℕ) : TileCoord :=
  let latRad := clampLat lat * Real.pi / 180
  let n : ℤ := 2 ^ zoom
  let x : ℤ := ⌊(lon + 180) / 360 * (n : ℝ)⌋
  let y : ℤ :=
    ⌊(1 - Real.log (Real.tan latRad + 1 / Real.cos latRad) / Real.pi) / 2 * (n : ℝ)⌋
  let maxIndex := n - 1
  ⟨min (max x 0) maxIndex, min (max y 0) maxIndex⟩

/-- The bounding box in degrees returned by `computeBoundingBox`. -/
structure BoundingBox where
  minLat : ℝ
  maxLat : ℝ
  minLon : ℝ
  maxLon : ℝ

/-- Function `computeBoundingBox` from the downloader: angular radius on the sphere,
symmetric latitude delta, longitude delta inflated by `1 / cos(latRad)` with
the divisor floored at `1e-6`. -/
noncomputable def computeBoundingBox (lat lon radiusMeters : ℝ) : BoundingBox :=
  let angularRadius := radiusMeters / EARTH_RADIUS_METERS
  let latDelta := angularRadius * 180 / Real.pi
  let lonDelta :=
    angularRadius * 180 / (Real.pi * max (Real.cos (lat * Real.pi / 180)) 1e-6)
  ⟨lat - latDelta, lat + latDelta, lon - lonDelta, lon + lonDelta⟩

/-! ### Tile address enumerator (the per-zoom loop body of `main`) -/

/-- The double `for` loop of `main`: all `(x, y)` pairs with
`minX ≤ x ≤ maxX` (outer loop, ascending) and `minY ≤ y ≤ maxY` (inner loop,
ascending). -/
def tileRange (minX maxX minY maxY : ℤ) : List (ℤ × ℤ) :=
  (List.range (maxX + 1 - minX).toNat).flatMap (fun (i : ℕ) =>
    (List.range (maxY + 1 - minY).toNat).map (fun (j : ℕ) =>
      (minX + (i : ℤ), minY + (j : ℤ))))

/-- One zoom level of `main`'s enumeration: project the two opposite corners
of the bounding box with `latLonToTile`, take min/max of x and of y
independently, and enumerate the inclusive rectangle. -/
noncomputable def tilesForZoom (bbox : BoundingBox) (zoom : ℕ) : List (ℤ × ℤ) :=
  let southWest := latLonToTile bbox.minLat bbox.minLon zoom
  let northEast := latLonToTile bbox.maxLat bbox.maxLon zoom
  tileRange (min southWest.x northEast.x) (max southWest.x northEast.x)
    (min southWest.y northEast.y) (max southWest.y northEast.y)

/-! ### Tile serving endpoint (`/tiles/:z/:x/:y.:ext` in the tile server) -/

/-- Predicate `isValidCoordinate`: the regex `/^\d+$/`, one or more decimal digits. -/
def isValidCoordinate (s : String) : Bool :=
  !s.data.isEmpty && s.data.all Char.isDigit

/-- Constant `ALLOWED_EXTENSIONS` from the tile server source. -/
def ALLOWED_EXTENSIONS : List String := ["png", "jpg", "jpeg", "webp"]

/-- Node `path.normalize` at the level of path segments of an absolute path:
empty and `.` segments are dropped, `..` pops the previous segment (dropped
at the root). -/
def normSegs (segs : List String) : List String :=
  segs.foldl
    (fun acc s =>
      if s = "" ∨ s = "." then acc
      else if s = ".." then acc.dropLast
      else acc ++ [s])
    []

/-- Render an absolute path from its segments, the way Node renders the
result of `path.join`/`path.normalize` (POSIX flavour): `/a/b/c`, and `/`
for the empty segment list. -/
def renderTail : List String → String
  | [] => ""
  | s :: rest => "/" ++ s ++ renderTail rest

/-- Absolute path string of a segment list. -/
def renderPath (l : List String) : String :=
  if l.isEmpty then "/" else renderTail l

/-- Body of an HTTP response from the tile server: all error branches send a
JSON object with an `error` field; success sends the tile file. -/
inductive RespBody where
  | jsonError (message : String) : RespBody
  | fileBytes (path : String) : RespBody
deriving Repr, DecidableEq

/-- An HTTP response (status code plus body). -/
structure Resp where
  status : ℕ
  body : RespBody
deriving Repr, DecidableEq

/-- Outcome of the `fs.access(normalizedTilePath, R_OK, ...)` callback:
readable, missing (`ENOENT`), or some other filesystem error. -/
inductive AccessResult where
  | ok : AccessResult
  | enoent : AccessResult
  | otherError : AccessResult
deriving Repr, DecidableEq

/-- The combined digits-only test of the first guard,
`isValidCoordinate(z) && isValidCoordinate(x) && isValidCoordinate(y)`. -/
def coordsValid (z x y : String) : Bool :=
  isValidCoordinate z && isValidCoordinate x && isValidCoordinate y

/-- Node `path.normalize(path.join(TILE_ROOT, z, x, y + "." + extension))` at the
segment level. -/
def tilePathSegs (root : List String) (z x y extension : String) : List String :=
  normSegs (root ++ [z, x, y ++ "." ++ extension])

/-- The third guard, `normalizedTilePath.startsWith(TILE_ROOT)`. -/
def pathWithinRoot (root : List String) (z x y extension : String) : Bool :=
  strStartsWith (renderPath (tilePathSegs root z x y extension)) (renderPath root)

/-- The `/tiles/:z/:x/:y.:ext` handler of the tile server, with the root
directory given as its (already resolved) segment list and the filesystem
probe as an oracle. Checks run in source order: digits-only coordinates
(400), extension allow-list (415), normalized-path-inside-root (403), then
`fs.access` (404 on `ENOENT`, 500 via the error middleware otherwise),
finally `sendFile` (200). -/
def handleTileRequest (root : List String) (z x y ext : String)
    (access : AccessResult) : Resp :=
  if !(coordsValid z x y) then
    ⟨400, .jsonError "Coordinates must be non-negative integers."⟩
  else
    let extension := jsToLower ext
    if !(ALLOWED_EXTENSIONS.contains extension) then
      ⟨415, .jsonError ("Unsupported tile extension " ++ extension ++
        ". Allowed: png, jpg, jpeg, webp.")⟩
    else
      if !(pathWithinRoot root z x y extension) then
        ⟨403, .jsonError "Tile path escapes root directory."⟩
      else
        match access with
        | .enoent => ⟨404, .jsonError "Tile not found."⟩
        | .otherError => ⟨500, .jsonError "Internal server error."⟩
        | .ok => ⟨200, .fileBytes (renderPath (tilePathSegs root z x y extension))⟩

/-! ### Fetch pipeline (`downloadTile` and the loop of `main`) -/

/-- Result object of `downloadTile`. -/
structure DownloadResult where
  success : Bool
  error : Option String
deriving Repr, DecidableEq

/-- Outcome of the `fetch(url)` call: an HTTP response with a status code
and body bytes, or a transport error (rejected promise). -/
inductive FetchOutcome where
  | response (status : ℕ) (statusText : String) (body : List ℕ) : FetchOutcome
  | transportError (message : String) : FetchOutcome
deriving Repr, DecidableEq

/-- The filesystem as seen by the downloader: created directories and
written files (keyed by their path segments). -/
structure FileStore where
  dirs : List (List String)
  files : List (List String × List ℕ)
deriving Repr, DecidableEq

/-- Function `downloadTile`: on a 2xx response (`response.ok`), create the parent
directory of the output path and write the body bytes, reporting success;
a non-2xx status throws `HTTP <status> <statusText>` and a transport error
rejects, both caught by the same handler which reports failure and touches
nothing on disk. -/
def downloadTile (outputPath : List String) (outcome : FetchOutcome)
    (store : FileStore) : DownloadResult × FileStore :=
  match outcome with
  | .transportError message => (⟨false, some message⟩, store)
  | .response status statusText body =>
    if 200 ≤ status ∧ status ≤ 299 then
      (⟨true, none⟩,
        ⟨outputPath.dropLast :: store.dirs, (outputPath, body) :: store.files⟩)
    else
      (⟨false, some ("HTTP " ++ toString status ++ " " ++ statusText)⟩, store)

/-- The observable result of one run of the downloader's `main`. -/
structure MainResult where
  exitCode : ℕ
  attempted : List (ℕ × ℤ × ℤ)
  successCount : ℕ
  failureCount : ℕ
deriving Repr, DecidableEq

/-- The `successCount` / `failureCount` accumulation of `main`'s loop over
the attempted tiles, driven by the fetch oracle. -/
def countFetches (fetch : ℕ → ℤ → ℤ → Bool) (l : List (ℕ × ℤ × ℤ)) : ℕ × ℕ :=
  l.foldl
    (fun acc t =>
      if fetch t.1 t.2.1 t.2.2 then (acc.1 + 1, acc.2) else (acc.1, acc.2 + 1))
    (0, 0)

/-- The downloader's `main`, with the fetch outcomes abstracted as a success
oracle per `(zoom, x, y)`: missing/invalid center coordinates abort with
exit code 1 before any work; an empty zoom list aborts with exit code 1
before any work; otherwise every tile of every zoom level's rectangle is
attempted in order, successes and failures are counted, and the exit code is
1 exactly when some tile failed. -/
noncomputable def runMain (lat lon : Option ℝ) (radiusMeters : ℝ)
    (zoomLevels : List ℕ) (fetch : ℕ → ℤ → ℤ → Bool) : MainResult :=
  match lat, lon with
  | some la, some lo =>
    if zoomLevels.isEmpty then ⟨1, [], 0, 0⟩
    else
      let bbox := computeBoundingBox la lo radiusMeters
      let attempted := zoomLevels.flatMap (fun zoom =>
        (tilesForZoom bbox zoom).map (fun p => (zoom, p.1, p.2)))
      let counts := countFetches fetch attempted
      ⟨if 0 < counts.2 then 1 else 0, attempted, counts.1, counts.2⟩
  | _, _ => ⟨1, [], 0, 0⟩

/-! ### Lemmas about the tile rectangle enumeration -/

theorem tileRange_mem (a b c d x y : ℤ) :
    (x, y) ∈ tileRange a b c d ↔ a ≤ x ∧ x ≤ b ∧ c ≤ y ∧ y ≤ d := by
  simp only [tileRange, List.mem_flatMap, List.mem_map, List.mem_range]
  constructor
  · rintro ⟨i, hi, j, hj, h⟩
    rw [Prod.mk.injEq] at h
    omega
  · intro h
    refine ⟨(x - a).toNat, by omega, (y - c).toNat, by omega, ?_⟩
    rw [Prod.mk.injEq]
    omega

theorem tileRange_nodup (a b c d : ℤ) : (tileRange a b c d).Nodup := by
  rw [tileRange, List.nodup_flatMap]
  constructor
  · intro i _
    refine List.Nodup.map ?_ (List.nodup_range _)
    intro j₁ j₂ h
    rw [Prod.mk.injEq] at h
    omega
  · refine (List.pairwise_lt_range _).imp ?_
    intro i₁ i₂ hlt
    intro p hp₁ hp₂
    simp only [List.mem_map, List.mem_range] at hp₁ hp₂
    obtain ⟨j₁, _, rfl⟩ := hp₁
    obtain ⟨j₂, _, h⟩ := hp₂
    rw [Prod.mk.injEq] at h
    omega

theorem tileRange_pairwise (a b c d : ℤ) :
    (tileRange a b c d).Pairwise
      (fun p q => p.1 < q.1 ∨ (p.1 = q.1 ∧ p.2 < q.2)) := by
  rw [tileRange, List.flatMap_def, List.pairwise_flatten]
  constructor
  · intro l hl
    simp only [List.mem_map, List.mem_range] at hl
    obtain ⟨i, ⟨_, rfl⟩⟩ := hl
    rw [List.pairwise_map]
    refine (List.pairwise_lt_range _).imp ?_
    intro j₁ j₂ hlt
    exact Or.inr ⟨rfl, by omega⟩
  · rw [List.pairwise_map]
    refine (List.pairwise_lt_range _).imp ?_
    intro i₁ i₂ hlt p hp q hq
    simp only [List.mem_map, List.mem_range] at hp hq
    obtain ⟨j₁, _, rfl⟩ := hp
    obtain ⟨j₂, _, rfl⟩ := hq
    exact Or.inl (by omega)

theorem tileRange_singleton (a c : ℤ) : tileRange a a c c = [(a, c)] := by
  have ha : (a + 1 - a).toNat = 1 := by omega
  have hc : (c + 1 - c).toNat = 1 := by omega
  have hr : List.range 1 = [0] := rfl
  simp [tileRange, ha, hc, hr]

theorem tilesForZoom_eq (bbox : BoundingBox) (zoom : ℕ) :
    tilesForZoom bbox zoom =
      tileRange
        (min (latLonToTile bbox.minLat bbox.minLon zoom).x
          (latLonToTile bbox.maxLat bbox.maxLon zoom).x)
        (max (latLonToTile bbox.minLat bbox.minLon zoom).x
          (latLonToTile bbox.maxLat bbox.maxLon zoom).x)
        (min (latLonToTile bbox.minLat bbox.minLon zoom).y
          (latLonToTile bbox.maxLat bbox.maxLon zoom).y)
        (max (latLonToTile bbox.minLat bbox.minLon zoom).y
          (latLonToTile bbox.maxLat bbox.maxLon zoom).y) := rfl

theorem computeBoundingBox_radius_zero (lat lon : ℝ) :
    computeBoundingBox lat lon 0 = ⟨lat, lat, lon, lon⟩ := by
  simp [computeBoundingBox]

theorem tilesForZoom_radius_zero (lat lon : ℝ) (zoom : ℕ) :
    tilesForZoom (computeBoundingBox lat lon 0) zoom =
      [((latLonToTile lat lon zoom).x, (latLonToTile lat lon zoom).y)] := by
  rw [computeBoundingBox_radius_zero, tilesForZoom_eq]
  simp only [min_self, max_self]
  exact tileRange_singleton _ _

theorem latLonToTile_origin : latLonToTile 0 0 0 = ⟨0, 0⟩ := by
  have hclamp : clampLat 0 = 0 := by
    unfold clampLat
    norm_num
  have hrad : clampLat 0 * Real.pi / 180 = 0 := by
    rw [hclamp]; ring
  simp only [latLonToTile, hrad, Real.tan_zero, Real.cos_zero]
  norm_num

/-! ### Claim theorems -/

/-- C1: for every zoom `z ≥ 0` and all (finite) real `lat`, `lon`,
`latLonToTile` first clamps the latitude to `[-85.05112878, 85.05112878]`
and returns a `TileCoord` whose `x` and `y` are integers in `[0, 2^z - 1]`;
in particular `latLonToTile 0 0 0 = ⟨0, 0⟩`. The function is pure and total. -/
theorem latLonToTile_clamped_range_and_origin :
    (∀ (zoom : ℕ) (lat lon : ℝ),
      0 ≤ (latLonToTile lat lon zoom).x ∧
      (latLonToTile lat lon zoom).x ≤ 2 ^ zoom - 1 ∧
      0 ≤ (latLonToTile lat lon zoom).y ∧
      (latLonToTile lat lon zoom).y ≤ 2 ^ zoom - 1) ∧
    latLonToTile 0 0 0 = ⟨0, 0⟩ := by
  constructor
  · intro zoom lat lon
    have hpow : (0 : ℤ) < 2 ^ zoom := pow_pos (by norm_num) zoom
    refine ⟨?_, ?_, ?_, ?_⟩ <;>
      simp only [latLonToTile] <;>
      first
        | exact le_min (le_max_right _ _) (by omega)
        | exact min_le_right _ _
  · exact latLonToTile_origin

/-- C2: for every bounding box and zoom, the enumerator computes the tile
coordinates of the two opposite corners via `latLonToTile`, takes min/max of
x and of y independently, and produces every `(x, y)` pair of that inclusive
rectangle exactly once (membership characterisation plus no duplicates), in
ascending x then ascending y order (lexicographic pairwise ordering). -/
theorem tilesForZoom_rect_nodup_ordered (bbox : BoundingBox) (zoom : ℕ) :
    (∀ p : ℤ × ℤ, p ∈ tilesForZoom bbox zoom ↔
      (min (latLonToTile bbox.minLat bbox.minLon zoom).x
          (latLonToTile bbox.maxLat bbox.maxLon zoom).x ≤ p.1 ∧
        p.1 ≤ max (latLonToTile bbox.minLat bbox.minLon zoom).x
          (latLonToTile bbox.maxLat bbox.maxLon zoom).x ∧
        min (latLonToTile bbox.minLat bbox.minLon zoom).y
          (latLonToTile bbox.maxLat bbox.maxLon zoom).y ≤ p.2 ∧
        p.2 ≤ max (latLonToTile bbox.minLat bbox.minLon zoom).y
          (latLonToTile bbox.maxLat bbox.maxLon zoom).y)) ∧
    (tilesForZoom bbox zoom).Nodup ∧
    (tilesForZoom bbox zoom).Pairwise
      (fun p q => p.1 < q.1 ∨ (p.1 = q.1 ∧ p.2 < q.2)) := by
  rw [tilesForZoom_eq]
  refine ⟨?_, tileRange_nodup _ _ _ _, tileRange_pairwise _ _ _ _⟩
  intro p
  rw [show p = (p.1, p.2) from rfl, tileRange_mem]

/-- C6: `computeBoundingBox lat lon r` computes the angular radius
`r / 6371008.8`, a latitude delta `angularRadius * 180 / π`, a longitude
delta `angularRadius * 180 / (π * max (cos latRad) 1e-6)`, and returns the
symmetric box around the center; the cosine divisor is never below `1e-6`. -/
theorem computeBoundingBox_spec_formulas (lat lon r : ℝ) :
    (computeBoundingBox lat lon r).minLat =
      lat - r / 6371008.8 * 180 / Real.pi ∧
    (computeBoundingBox lat lon r).maxLat =
      lat + r / 6371008.8 * 180 / Real.pi ∧
    (computeBoundingBox lat lon r).minLon =
      lon - r / 6371008.8 * 180 /
        (Real.pi * max (Real.cos (lat * Real.pi / 180)) 1e-6) ∧
    (computeBoundingBox lat lon r).maxLon =
      lon + r / 6371008.8 * 180 /
        (Real.pi * max (Real.cos (lat * Real.pi / 180)) 1e-6) ∧
    (1e-6 : ℝ) ≤ max (Real.cos (lat * Real.pi / 180)) 1e-6 := by
  refine ⟨rfl, rfl, rfl, rfl, le_max_right _ _⟩

/-- C7: for any center and zoom, a radius of 0 meters degenerates the
bounding box to the single center point, and the enumerator yields exactly
the one tile containing that point (not zero tiles); in particular so for
center `(37.7749, -122.4194)` at zoom 10. -/
theorem radius_zero_yields_single_tile :
    (∀ (lat lon : ℝ) (zoom : ℕ),
      computeBoundingBox lat lon 0 = ⟨lat, lat, lon, lon⟩ ∧
      tilesForZoom (computeBoundingBox lat lon 0) zoom =
        [((latLonToTile lat lon zoom).x, (latLonToTile lat lon zoom).y)] ∧
      (tilesForZoom (computeBoundingBox lat lon 0) zoom).length = 1) ∧
    tilesForZoom (computeBoundingBox 37.7749 (-122.4194) 0) 10 =
      [((latLonToTile 37.7749 (-122.4194) 10).x,
        (latLonToTile 37.7749 (-122.4194) 10).y)] := by
  refine ⟨fun lat lon zoom =>
    ⟨computeBoundingBox_radius_zero lat lon, tilesForZoom_radius_zero lat lon zoom, ?_⟩,
    tilesForZoom_radius_zero _ _ _⟩
  rw [tilesForZoom_radius_zero lat lon zoom]
  rfl
/-! ### Lemmas about the dedup/sort pipeline of `parseZooms` -/

theorem jsUniqueFirst_nodup (l : List ℤ) : (jsUniqueFirst l).Nodup := by
  unfold jsUniqueFirst
  have henum : l.enum.Nodup := by
    refine List.Nodup.of_map Prod.fst ?_
    rw [List.enum_map_fst]
    exact List.nodup_range _
  refine List.Nodup.map_on ?_ (henum.filter _)
  intro p hp q hq hsnd
  rw [List.mem_filter] at hp hq
  have hip : l.indexOf p.2 = p.1 := by simpa using hp.2
  have hiq : l.indexOf q.2 = q.1 := by simpa using hq.2
  exact Prod.ext (by rw [← hip, ← hiq, hsnd]) hsnd

theorem jsUniqueFirst_mem (l : List ℤ) (z : ℤ) : z ∈ jsUniqueFirst l ↔ z ∈ l := by
  unfold jsUniqueFirst
  constructor
  · intro h
    simp only [List.mem_map, List.mem_filter] at h
    obtain ⟨p, ⟨hpmem, _⟩, rfl⟩ := h
    rw [← List.enum_map_snd l]
    exact List.mem_map_of_mem _ hpmem
  · intro h
    refine List.mem_map.mpr ⟨(l.indexOf z, z), ?_, rfl⟩
    rw [List.mem_filter]
    refine ⟨List.mk_mem_enum_iff_getElem?.mpr (List.getElem?_indexOf h), by simp⟩

theorem jsSortAsc_mem (l : List ℤ) (z : ℤ) : z ∈ jsSortAsc l ↔ z ∈ l :=
  (List.perm_insertionSort _ _).mem_iff

theorem jsSortAsc_strict_of_nodup (l : List ℤ) (h : l.Nodup) :
    (jsSortAsc l).Pairwise (· < ·) := by
  have hsorted : List.Sorted (· ≤ ·) (jsSortAsc l) := List.sorted_insertionSort _ _
  have hnodup : (jsSortAsc l).Nodup := (List.perm_insertionSort _ _).nodup_iff.mpr h
  exact hsorted.lt_of_le hnodup

/-- C4: `parseZooms` maps the dash-range string `"12-14"` to `[12, 13, 14]`
and the list `["12", "12", "13"]` to `[12, 13]`; for every (non-empty) array
input the sub-results are unioned (membership is exactly membership in some
element's parse), deduplicated and sorted ascending (strictly increasing
output). -/
theorem parseZooms_ranges_dedup_sorted :
    parseZooms (.str "12-14") = [12, 13, 14] ∧
    parseZooms (.arr ["12", "12", "13"]) = [12, 13] ∧
    (∀ items : List String, items ≠ [] →
      (parseZooms (.arr items)).Pairwise (· < ·) ∧
      (∀ z : ℤ, z ∈ parseZooms (.arr items) ↔
        ∃ s ∈ items, z ∈ parseZoomValueString s)) := by
  refine ⟨by decide, by decide, ?_⟩
  intro items hne
  have hnotempty : items.isEmpty = false := by
    simpa [List.isEmpty_iff] using hne
  constructor
  · simp only [parseZooms, hnotempty, Bool.false_eq_true, if_false]
    exact jsSortAsc_strict_of_nodup _ (jsUniqueFirst_nodup _)
  · intro z
    simp only [parseZooms, hnotempty, Bool.false_eq_true, if_false]
    rw [jsSortAsc_mem, jsUniqueFirst_mem, List.mem_flatMap]

/-- C4 witness: the general clause of `parseZooms_ranges_dedup_sorted`
instantiated at the concrete array `["7", "3", "7"]`. -/
theorem parseZooms_ranges_dedup_sorted_witness :
    (parseZooms (.arr ["7", "3", "7"])).Pairwise (· < ·) ∧
    ((3 : ℤ) ∈ parseZooms (.arr ["7", "3", "7"]) ↔
      ∃ s ∈ ["7", "3", "7"], (3 : ℤ) ∈ parseZoomValueString s) := by
  have h := parseZooms_ranges_dedup_sorted.2.2 ["7", "3", "7"] (by decide)
  exact ⟨h.1, h.2 3⟩

/-- C5 counterexample: the entry `"5-3"` denotes neither an integer nor a
valid ascending dash-range, yet it is not dropped: `parseZooms` hands it to
`parseInt`, which reads the leading integer prefix, so the entry contributes
the zoom level 5 to the result instead of contributing nothing. -/
theorem parseZooms_malformed_entry_counterexample :
    parseZooms (.str "5-3") = [5] := by decide

/-- C5 amended: entries whose `parseInt` (leading-integer) parse fails are
dropped silently and contribute nothing — every zoom level in the result of
a string parse is justified either by a valid ascending dash-range or by a
comma-separated part whose `parseInt` succeeds on exactly that value (so an
entry like `"5-3"` contributes its leading integer 5) — and when the
resulting zoom set is empty the downloader exits with code 1 having
attempted no tile at all, rather than failing inside the parsing module. -/
theorem parseZooms_malformed_amended :
    (∀ s : String, s ≠ "" → ∀ z : ℤ, z ∈ parseZooms (.str s) →
      (∃ a b, dashParse (jsTrim s) = some (a, b) ∧ a ≤ z ∧ z ≤ b) ∨
      (∃ p ∈ jsSplit ',' (jsTrim s), jsParseInt (jsTrim p) = some z)) ∧
    (∀ (la lo r : ℝ) (fetch : ℕ → ℤ → ℤ → Bool),
      runMain (some la) (some lo) r [] fetch = ⟨1, [], 0, 0⟩) := by
  constructor
  · intro s hs z hz
    simp only [parseZooms, parseZoomValueString, if_neg hs, parseZoomString] at hz
    rcases hd : dashParse (jsTrim s) with _ | ⟨a, b⟩ <;> rw [hd] at hz
    · right
      simpa [commaParse, List.mem_filterMap] using hz
    · left
      simp only [intRange, List.mem_map, List.mem_range] at hz
      obtain ⟨i, hi, hzz⟩ := hz
      exact ⟨a, b, rfl, by omega, by omega⟩
  · intro la lo r fetch
    rfl

/-- C5 witness: the amended theorem applied at the concrete malformed entry
`"5-3"` (justified by the comma branch, through `parseInt`'s leading-integer
rule) and at a concrete empty-zoom run. -/
theorem parseZooms_malformed_amended_witness :
    ((5 : ℤ) ∈ parseZooms (.str "5-3")) ∧
    ((∃ a b, dashParse (jsTrim "5-3") = some (a, b) ∧ a ≤ (5 : ℤ) ∧ (5 : ℤ) ≤ b) ∨
      (∃ p ∈ jsSplit ',' (jsTrim "5-3"), jsParseInt (jsTrim p) = some 5)) ∧
    runMain (some 1) (some 2) 3 [] (fun _ _ _ => true) = ⟨1, [], 0, 0⟩ :=
  ⟨by decide, parseZooms_malformed_amended.1 "5-3" (by decide) 5 (by decide),
    parseZooms_malformed_amended.2 1 2 3 (fun _ _ _ => true)⟩

/-! ### Lemmas about the download loop counters -/

theorem countFetches_eq (fetch : ℕ → ℤ → ℤ → Bool) (l : List (ℕ × ℤ × ℤ)) :
    countFetches fetch l =
      ((l.filter (fun t => fetch t.1 t.2.1 t.2.2)).length,
       (l.filter (fun t => !fetch t.1 t.2.1 t.2.2)).length) := by
  suffices h : ∀ (m : List (ℕ × ℤ × ℤ)) (a b : ℕ),
      m.foldl
        (fun acc t =>
          if fetch t.1 t.2.1 t.2.2 then (acc.1 + 1, acc.2) else (acc.1, acc.2 + 1))
        (a, b) =
      (a + (m.filter (fun t => fetch t.1 t.2.1 t.2.2)).length,
       b + (m.filter (fun t => !fetch t.1 t.2.1 t.2.2)).length) by
    simpa [countFetches] using h l 0 0
  intro m
  induction m with
  | nil => intro a b; simp
  | cons t rest ih =>
    intro a b
    by_cases hf : fetch t.1 t.2.1 t.2.2 <;> simp [hf, ih] <;> omega

/-- C8: the downloader's exit status is non-zero exactly when the center
coordinates were missing/invalid, the zoom set was empty, or some tile fetch
failed; the attempted tile list does not depend on the fetch outcomes (the
batch runs to completion, never aborting on a per-tile failure), failures
and successes are exactly the counts over the attempted tiles, and with a
valid configuration every tile of every zoom level's rectangle is
attempted. -/
theorem runMain_exit_code_and_completion (lat lon : Option ℝ) (r : ℝ)
    (zooms : List ℕ) (fetch : ℕ → ℤ → ℤ → Bool) :
    ((runMain lat lon r zooms fetch).exitCode ≠ 0 ↔
      (lat = none ∨ lon = none ∨ zooms = [] ∨
        0 < (runMain lat lon r zooms fetch).failureCount)) ∧
    ((runMain lat lon r zooms fetch).attempted =
      (runMain lat lon r zooms (fun _ _ _ => true)).attempted) ∧
    ((runMain lat lon r zooms fetch).failureCount =
      ((runMain lat lon r zooms fetch).attempted.filter
        (fun t => !fetch t.1 t.2.1 t.2.2)).length) ∧
    ((runMain lat lon r zooms fetch).successCount =
      ((runMain lat lon r zooms fetch).attempted.filter
        (fun t => fetch t.1 t.2.1 t.2.2)).length) ∧
    (∀ la lo, lat = some la → lon = some lo → zooms ≠ [] →
      ∀ zoom ∈ zooms, ∀ p ∈ tilesForZoom (computeBoundingBox la lo r) zoom,
        (zoom, p.1, p.2) ∈ (runMain lat lon r zooms fetch).attempted) := by
  cases lat with
  | none => simp [runMain]
  | some la =>
    cases lon with
    | none => simp [runMain]
    | some lo =>
      cases hz : zooms.isEmpty with
      | true =>
        have hz' : zooms = [] := List.isEmpty_iff.mp hz
        subst hz'
        simp [runMain]
      | false =>
        have hz' : zooms ≠ [] := by
          intro h
          subst h
          simp at hz
        simp only [runMain, hz, Bool.false_eq_true, if_false, countFetches_eq]
        refine ⟨?_, trivial, trivial, trivial, ?_⟩
        · by_cases hF :
            0 < ((zooms.flatMap (fun zoom =>
              (tilesForZoom (computeBoundingBox la lo r) zoom).map
                (fun p => (zoom, p.1, p.2)))).filter
                  (fun t => !fetch t.1 t.2.1 t.2.2)).length <;>
            simp [hF, hz']
        · intro la' lo' hla hlo _ zoom hzoom p hp
          cases hla
          cases hlo
          exact List.mem_flatMap.mpr ⟨zoom, hzoom, List.mem_map_of_mem _ hp⟩

/-- C8 witness: the exit-code clause at a run with missing coordinates, and
the fetch-independence clause at a concrete all-failure run. -/
theorem runMain_exit_code_and_completion_witness :
    (runMain none none 0 [] (fun _ _ _ => true)).exitCode ≠ 0 ∧
    (runMain (some 0) (some 0) 0 [0] (fun _ _ _ => false)).attempted =
      (runMain (some 0) (some 0) 0 [0] (fun _ _ _ => true)).attempted :=
  ⟨(runMain_exit_code_and_completion none none 0 [] (fun _ _ _ => true)).1.mpr
      (Or.inl rfl),
    (runMain_exit_code_and_completion (some 0) (some 0) 0 [0]
      (fun _ _ _ => false)).2.1⟩

/-! ### Lemmas about path normalization and rendering -/

theorem normSegs_of_normal (l : List String)
    (h : ∀ s ∈ l, s ≠ "" ∧ s ≠ "." ∧ s ≠ "..") : normSegs l = l := by
  have hgen : ∀ (m : List String) (acc : List String),
      (∀ s ∈ m, s ≠ "" ∧ s ≠ "." ∧ s ≠ "..") →
      m.foldl
        (fun acc s =>
          if s = "" ∨ s = "." then acc
          else if s = ".." then acc.dropLast
          else acc ++ [s])
        acc = acc ++ m := by
    intro m
    induction m with
    | nil => intro acc _; simp
    | cons s rest ih =>
      intro acc hm
      obtain ⟨h1, h2, h3⟩ := hm s (by simp)
      rw [List.foldl_cons, if_neg (by simp [h1, h2]), if_neg h3,
        ih (acc ++ [s]) (fun t ht => hm t (by simp [ht]))]
      simp
  unfold normSegs
  rw [hgen l [] h]
  simp

theorem renderTail_data_append (l₁ l₂ : List String) :
    (renderTail (l₁ ++ l₂)).data = (renderTail l₁).data ++ (renderTail l₂).data := by
  induction l₁ with
  | nil => simp [renderTail]
  | cons s rest ih => simp [renderTail, String.data_append, ih]

theorem renderPath_startsWith_append (root extra : List String) (hx : extra ≠ []) :
    strStartsWith (renderPath (root ++ extra)) (renderPath root) = true := by
  unfold strStartsWith
  rw [List.isPrefixOf_iff_prefix]
  cases root with
  | nil =>
    cases extra with
    | nil => exact absurd rfl hx
    | cons s rest =>
      simp only [List.nil_append, renderPath, List.isEmpty_cons, if_false,
        List.isEmpty_nil, if_true, renderTail, String.data_append]
      simp [show ("/" : String).data = ['/'] from rfl]
  | cons r rs =>
    have h₁ : renderPath (r :: rs) = renderTail (r :: rs) := by
      simp [renderPath]
    have h₂ : renderPath (r :: rs ++ extra) = renderTail (r :: rs ++ extra) := by
      simp [renderPath]
    rw [h₁, h₂, show r :: rs ++ extra = (r :: rs) ++ extra from rfl,
      renderTail_data_append]
    exact List.prefix_append _ _

/-! ### Lemmas about digits-only coordinate segments -/

theorem isValidCoordinate_shape (s : String) (h : isValidCoordinate s = true) :
    ∃ c t, s.data = c :: t ∧ c.isDigit = true := by
  unfold isValidCoordinate at h
  rw [Bool.and_eq_true] at h
  obtain ⟨h1, h2⟩ := h
  rw [List.all_eq_true] at h2
  cases hd : s.data with
  | nil => rw [hd] at h1; simp at h1
  | cons c t =>
    exact ⟨c, t, rfl, h2 c (by rw [hd]; exact List.mem_cons_self c t)⟩

theorem normalSeg_of_head_digit (s : String) (c : Char) (t : List Char)
    (hs : s.data = c :: t) (hc : c.isDigit = true) :
    s ≠ "" ∧ s ≠ "." ∧ s ≠ ".." := by
  refine ⟨?_, ?_, ?_⟩ <;> intro he <;> rw [he] at hs
  · have h0 : ("" : String).data = [] := rfl
    rw [h0] at hs
    exact List.noConfusion hs
  · have h0 : ("." : String).data = ['.'] := rfl
    rw [h0] at hs
    injection hs with hc' _
    rw [← hc'] at hc
    exact absurd hc (by decide)
  · have h0 : (".." : String).data = ['.', '.'] := rfl
    rw [h0] at hs
    injection hs with hc' _
    rw [← hc'] at hc
    exact absurd hc (by decide)

theorem tile_file_segment_normal (y extension : String)
    (hy : isValidCoordinate y = true) :
    y ++ "." ++ extension ≠ "" ∧ y ++ "." ++ extension ≠ "." ∧
      y ++ "." ++ extension ≠ ".." := by
  obtain ⟨c, t, hdata, hc⟩ := isValidCoordinate_shape y hy
  have hseg : (y ++ "." ++ extension).data = c :: (t ++ '.' :: extension.data) := by
    rw [String.data_append, String.data_append, hdata]
    simp [show ("." : String).data = ['.'] from rfl]
  exact normalSeg_of_head_digit _ c _ hseg hc

/-- C3: the tile-serving request handler applies its checks in order —
non-digit coordinate → 400, disallowed (lower-cased) extension → 415,
normalized path outside the root → 403, missing file → 404, other
filesystem error → 500, success → 200 with the tile file — and every
non-200 response carries a JSON object with an error field. -/
theorem handleTileRequest_validation_order (root : List String) (z x y ext : String)
    (access : AccessResult) :
    (coordsValid z x y = false →
      handleTileRequest root z x y ext access =
        ⟨400, .jsonError "Coordinates must be non-negative integers."⟩) ∧
    (coordsValid z x y = true →
      ALLOWED_EXTENSIONS.contains (jsToLower ext) = false →
      (handleTileRequest root z x y ext access).status = 415 ∧
      ∃ m, (handleTileRequest root z x y ext access).body = .jsonError m) ∧
    (coordsValid z x y = true →
      ALLOWED_EXTENSIONS.contains (jsToLower ext) = true →
      pathWithinRoot root z x y (jsToLower ext) = false →
      handleTileRequest root z x y ext access =
        ⟨403, .jsonError "Tile path escapes root directory."⟩) ∧
    (coordsValid z x y = true →
      ALLOWED_EXTENSIONS.contains (jsToLower ext) = true →
      pathWithinRoot root z x y (jsToLower ext) = true →
      (access = .enoent →
        handleTileRequest root z x y ext access =
          ⟨404, .jsonError "Tile not found."⟩) ∧
      (access = .otherError →
        handleTileRequest root z x y ext access =
          ⟨500, .jsonError "Internal server error."⟩) ∧
      (access = .ok →
        handleTileRequest root z x y ext access =
          ⟨200, .fileBytes (renderPath (tilePathSegs root z x y (jsToLower ext)))⟩)) ∧
    ((handleTileRequest root z x y ext access).status ≠ 200 →
      ∃ m, (handleTileRequest root z x y ext access).body = .jsonError m) := by
  cases hc : coordsValid z x y <;>
    cases he : ALLOWED_EXTENSIONS.contains (jsToLower ext) <;>
      cases hp : pathWithinRoot root z x y (jsToLower ext) <;>
        cases access <;>
          simp_all [handleTileRequest]

/-- C3 witness: the 400 clause of `handleTileRequest_validation_order` at
the concrete request `/tiles/5/10/abc.png`. -/
theorem handleTileRequest_validation_order_witness :
    handleTileRequest ["srv", "tiles"] "5" "10" "abc" "png" .ok =
      ⟨400, .jsonError "Coordinates must be non-negative integers."⟩ :=
  (handleTileRequest_validation_order ["srv", "tiles"] "5" "10" "abc" "png" .ok).1
    (by decide)

/-- C9: once z, x and y have passed the digits-only validation, the
normalized path built from the (resolved, hence normal-segment) root always
starts with the root path, so the 403 PathEscape branch is unreachable. -/
theorem handleTileRequest_no_path_escape (root : List String) (z x y ext : String)
    (access : AccessResult)
    (hroot : ∀ s ∈ root, s ≠ "" ∧ s ≠ "." ∧ s ≠ "..")
    (hz : isValidCoordinate z = true) (hx : isValidCoordinate x = true)
    (hy : isValidCoordinate y = true) :
    (handleTileRequest root z x y ext access).status ≠ 403 := by
  have hcv : coordsValid z x y = true := by
    simp [coordsValid, hz, hx, hy]
  cases he : ALLOWED_EXTENSIONS.contains (jsToLower ext) with
  | false =>
    have he' : ¬ (jsToLower ext ∈ ALLOWED_EXTENSIONS) := by simpa using he
    simp [handleTileRequest, hcv, he']
  | true =>
    have he' : jsToLower ext ∈ ALLOWED_EXTENSIONS := by simpa using he
    have hpath : pathWithinRoot root z x y (jsToLower ext) = true := by
      unfold pathWithinRoot tilePathSegs
      have hnorm : normSegs (root ++ [z, x, y ++ "." ++ jsToLower ext]) =
          root ++ [z, x, y ++ "." ++ jsToLower ext] := by
        apply normSegs_of_normal
        intro s hs
        rw [List.mem_append] at hs
        rcases hs with hs | hs
        · exact hroot s hs
        · obtain ⟨cz, tz, hdz, hcz⟩ := isValidCoordinate_shape z hz
          obtain ⟨cx, tx, hdx, hcx⟩ := isValidCoordinate_shape x hx
          simp only [List.mem_cons, List.not_mem_nil, or_false] at hs
          rcases hs with rfl | rfl | rfl
          · exact normalSeg_of_head_digit _ _ _ hdz hcz
          · exact normalSeg_of_head_digit _ _ _ hdx hcx
          · exact tile_file_segment_normal y (jsToLower ext) hy
      rw [hnorm]
      exact renderPath_startsWith_append root _ (by simp)
    cases access <;> simp [handleTileRequest, hcv, he', hpath]

/-- C9 witness: `handleTileRequest_no_path_escape` at the concrete request
`/tiles/1/2/3.png` over the root `/srv/tiles`. -/
theorem handleTileRequest_no_path_escape_witness :
    (handleTileRequest ["srv", "tiles"] "1" "2" "3" "png" .ok).status ≠ 403 :=
  handleTileRequest_no_path_escape ["srv", "tiles"] "1" "2" "3" "png" .ok
    (by decide) (by decide) (by decide) (by decide)

/-- C10: `downloadTile` writes the tile file and creates its parent
directory only after a 2xx response; on a non-2xx response or a transport
error it reports `success = false` with an error message and leaves the
file store unchanged — no file is created for a failed fetch. -/
theorem downloadTile_writes_only_on_2xx (outputPath : List String)
    (outcome : FetchOutcome) (store : FileStore) :
    ((downloadTile outputPath outcome store).1.success = true →
      ∃ status statusText body,
        outcome = .response status statusText body ∧
        200 ≤ status ∧ status ≤ 299 ∧
        (downloadTile outputPath outcome store).2 =
          ⟨outputPath.dropLast :: store.dirs, (outputPath, body) :: store.files⟩) ∧
    ((downloadTile outputPath outcome store).1.success = false →
      (downloadTile outputPath outcome store).2 = store ∧
      ((downloadTile outputPath outcome store).1.error).isSome = true) ∧
    (∀ status statusText body, outcome = .response status statusText body →
      ¬(200 ≤ status ∧ status ≤ 299) →
      (downloadTile outputPath outcome store).1.success = false) ∧
    (∀ m, outcome = .transportError m →
      (downloadTile outputPath outcome store).1 = ⟨false, some m⟩ ∧
      (downloadTile outputPath outcome store).2 = store) := by
  cases outcome with
  | transportError m => simp [downloadTile]
  | response status statusText body =>
    by_cases h2 : 200 ≤ status ∧ status ≤ 299
    · simp only [downloadTile, if_pos h2]
      refine ⟨fun _ => ⟨status, statusText, body, rfl, h2.1, h2.2, rfl⟩, ?_, ?_, ?_⟩
      · intro h
        exact absurd h (by simp)
      · intro st t b heq hlt
        injection heq with e1 e2 e3
        exact absurd h2 (by rw [e1]; exact hlt)
      · intro m heq
        exact FetchOutcome.noConfusion heq
    · simp [downloadTile, if_neg h2, h2]

/-- C10 witness: `downloadTile_writes_only_on_2xx` at a concrete failed
fetch (HTTP 404) against an empty file store: nothing is written. -/
theorem downloadTile_writes_only_on_2xx_witness :
    (downloadTile ["tiles", "12", "3", "4.png"]
      (.response 404 "Not Found" []) ⟨[], []⟩).2 = ⟨[], []⟩ ∧
    (downloadTile ["tiles", "12", "3", "4.png"]
      (.response 404 "Not Found" []) ⟨[], []⟩).1.success = false := by
  have h := downloadTile_writes_only_on_2xx ["tiles", "12", "3", "4.png"]
    (.response 404 "Not Found" []) ⟨[], []⟩
  have hfail := h.2.2.1 404 "Not Found" [] rfl (by omega)
  exact ⟨(h.2.1 hfail).1, hfail⟩
